import Mathlib

/-!
Verification of `zip_extractor.py` (repository `zip_recurse`).

We shallowly embed the program's pure logic and the effectful behavior of its
functions (`extract`, `timer`, `timeout`, `dmidecode`, `first_substring`, and
the archive-selection fragment of `__main__`) as Lean definitions, and prove
the specification's claims about them.

Modelling conventions:
- Python strings are Lean `String`s; byte payloads are `List Nat`.
- Exceptions are `Except PyErr`; a Python function that can raise returns
  `Except PyErr α` (an uncaught exception is `Except.error`).
- Filesystem effects are reified as an ordered list of `FSAction`s, and a
  filesystem is abstracted as the list of existing paths (`applyActions`).
- `mimetypes.guess_type(name)[0] == 'application/zip'` holds exactly when the
  extension computed by `posixpath.splitext` lower-cases to `".zip"`; we embed
  that extension computation faithfully (`splitextChars`, CPython's
  `genericpath._splitext` with separator `/`).  The compressed-suffix handling
  of `mimetypes` (`.gz` etc.) is irrelevant to every name considered here.
-/

deriving instance DecidableEq for Except

namespace ZipRecurse

/-- Python exception values that the embedded code can raise. -/
inductive PyErr where
  | badZipFile
  | stopIteration
  | typeError
  | timeoutError
  | generic (msg : String)
deriving DecidableEq, Repr

/-! ### String helpers (embedding Python's str operations) -/

/-- `listStartsWith pat s`: `s` begins with `pat` (over characters). -/
def listStartsWith : List Char → List Char → Bool
  | [], _ => true
  | _ :: _, [] => false
  | p :: ps, c :: cs => p == c && listStartsWith ps cs

/-- `listHasSub pat s`: some suffix of `s` begins with `pat`
(Python's `pat in s` over characters). -/
def listHasSub (pat : List Char) : List Char → Bool
  | [] => pat.isEmpty
  | c :: rest => listStartsWith pat (c :: rest) || listHasSub pat rest

/-- Python's substring test `pat in s`. -/
def hasSubstr (pat s : String) : Bool :=
  listHasSub pat.toList s.toList

/-- Index of the last occurrence of `c` in `l` (Python `str.rfind`, with
`none` for "not found"). -/
def rfindNat (c : Char) (l : List Char) : Option Nat :=
  (l.reverse.findIdx? (fun d => d == c)).map (fun i => l.length - 1 - i)

/-- CPython `posixpath.splitext` over characters: split off the extension of
the last path component, treating leading dots of the component as part of the
root (so `".bashrc"` has no extension). -/
def splitextChars (l : List Char) : List Char × List Char :=
  let s1 : Nat := match rfindNat '/' l with
    | none => 0
    | some i => i + 1
  match rfindNat '.' l with
  | none => (l, [])
  | some d =>
    if s1 ≤ d ∧ ((l.drop s1).take (d - s1)).any (fun c => c ≠ '.') then
      (l.take d, l.drop d)
    else (l, [])

/-- Python `str.split(sep)` for a single-character separator. -/
def splitOnChar (c : Char) : List Char → List (List Char)
  | [] => [[]]
  | d :: rest =>
    let r := splitOnChar c rest
    if d == c then [] :: r
    else
      match r with
      | [] => [[d]]
      | g :: gs => (d :: g) :: gs

/-- ASCII lower-casing of one character (`str.lower` as `mimetypes` applies
it to the extension). -/
def asciiLower (c : Char) : Char :=
  if 'A' ≤ c ∧ c ≤ 'Z' then Char.ofNat (c.toNat + 32) else c

/-- The content-type test used throughout the program:
`mimetypes.guess_type(name)[0] == 'application/zip'`, i.e. the
`posixpath.splitext` extension of `name` lower-cases to `".zip"`. -/
def guessTypeIsZip (name : String) : Bool :=
  ((splitextChars name.toList).2.map asciiLower) == ['.', 'z', 'i', 'p']

/-- The directory-name derivation of `extract`
(line `dirname = "".join(os.path.splitext(f)[0].split("/")[:-1])`):
the slash-separated components of the extension-stripped name, all but the
last, concatenated WITHOUT separators. -/
def dirnameFor (f : String) : String :=
  String.mk (List.flatten ((splitOnChar '/' (splitextChars f.toList).1).dropLast))

/-- The directory-name derivation as the specification words it: the entry's
name without extension, with the final path component dropped — i.e. all but
the last slash-separated component, joined back WITH the `/` separator.
Stated from the spec only, to be compared with `dirnameFor` from the source. -/
def dirnameClaimed (f : String) : String :=
  String.mk
    (List.flatten (List.intersperse ['/']
      ((splitOnChar '/' (splitextChars f.toList).1).dropLast)))

/-- Membership of a character in Python's default `str.strip` set. -/
def pyIsSpace (c : Char) : Bool :=
  c == ' ' || c == '\t' || c == '\n' || c == '\r' || c == '\x0b' || c == '\x0c'

/-- Python `str.strip()`. -/
def pyStrip (s : String) : String :=
  String.mk (((s.toList.dropWhile pyIsSpace).reverse.dropWhile pyIsSpace).reverse)

/-! ### The archives and the `extract` routine -/

/-- The content of a file: raw bytes, or a well-formed zip archive given by
its ordered member list (zip names with raw content model a `.zip`-named
member whose bytes are not a valid archive). -/
inductive FileData where
  | raw (bytes : List Nat)
  | zip (entries : List (String × FileData))

/-- `namelist` of an archive (empty for non-archive data). -/
def namelist : FileData → List String
  | FileData.raw _ => []
  | FileData.zip entries => entries.map Prod.fst

/-- Reified filesystem effects of `extract`, in execution order. -/
inductive FSAction where
  /-- `pathlib.Path(dir).mkdir(parents=True, exist_ok=True)`. -/
  | mkdirP (dir : String)
  /-- `zip_file.extract(name, dir)`: extract one member of a nested archive
  into `dir` (relative to the working directory). -/
  | extractMember (dir : String) (name : String)
  /-- `z.extractall()`: extract every named member of the outer archive into
  the working directory. -/
  | extractAll (names : List String)
deriving DecidableEq, Repr

/-- The body of `extract`'s entry loop for one outer entry `f`:
non-zip-named entries are skipped; for a zip-named entry the derived
directory is created and every member of the nested archive is extracted
into it; a zip-named entry whose bytes are not an archive makes
`zipfile.ZipFile` raise `BadZipFile`. -/
def processEntry (entry : String × FileData) : Except PyErr (List FSAction) :=
  if guessTypeIsZip entry.1 = false then
    Except.ok []
  else
    match entry.2 with
    | FileData.raw _ => Except.error PyErr.badZipFile
    | FileData.zip inner =>
      Except.ok (FSAction.mkdirP (dirnameFor entry.1) ::
        inner.map (fun e => FSAction.extractMember (dirnameFor entry.1) e.1))

/-- The entry loop of `extract`, accumulating actions in order. -/
def extractLoop : List (String × FileData) → Except PyErr (List FSAction)
  | [] => Except.ok []
  | e :: rest =>
    match processEntry e with
    | Except.error err => Except.error err
    | Except.ok a =>
      match extractLoop rest with
      | Except.error err => Except.error err
      | Except.ok r => Except.ok (a ++ r)

/-- `extract(filename)`: content-type gate, entry loop, unconditional
`for ... else: z.extractall()` (the loop has no `break`, so the `else` arm
always runs when the loop completes), and the result list
`["%s/%s" % (cwd, res) for res in z.namelist()]`.
Returns the ordered filesystem actions together with the Python return value
(`none` models Python's `None`). -/
def extract (cwd filename : String) (file : FileData) :
    Except PyErr (List FSAction × Option (List String)) :=
  if guessTypeIsZip filename = false then
    Except.ok ([], none)
  else
    match file with
    | FileData.raw _ => Except.error PyErr.badZipFile
    | FileData.zip entries =>
      match extractLoop entries with
      | Except.error err => Except.error err
      | Except.ok acts =>
        Except.ok (acts ++ [FSAction.extractAll (entries.map Prod.fst)],
          some ((entries.map Prod.fst).map (fun n => cwd ++ "/" ++ n)))

/-- Effect of one action on the abstract filesystem (the list of existing
paths, all rooted at the working directory `cwd`). -/
def applyAction (cwd : String) (fs : List String) : FSAction → List String
  | FSAction.mkdirP d => (cwd ++ "/" ++ d) :: fs
  | FSAction.extractMember d n => (cwd ++ "/" ++ d ++ "/" ++ n) :: fs
  | FSAction.extractAll names => names.map (fun n => cwd ++ "/" ++ n) ++ fs

/-- Effect of an action sequence on the abstract filesystem. -/
def applyActions (cwd : String) (fs : List String) (acts : List FSAction) :
    List String :=
  acts.foldl (applyAction cwd) fs

/-! ### The `timer` decorator -/

/-- Console events emitted by the `timer` wrapper. The report corresponds to
`print(f"{func.__name__} took {duration} seconds to run")`; the duration is
kept structured rather than formatted. -/
inductive TimerEvent where
  | report (funcName : String) (duration : ℚ)
deriving DecidableEq

/-- `round(x, 2)`: rounding to two decimal places. (Python rounds float ties
to even; ties at the 1/200 resolution are below the granularity any claim
here exercises, so Mathlib's `round` serves.) -/
def pyRound2 (x : ℚ) : ℚ :=
  (round (x * 100) : ℤ) / 100

/-- The wrapper produced by the `timer` decorator: `start = time.time()`, the
wrapped call, `end = time.time()`, then the duration report.  `startT`/`endT`
are the two clock readings; `call` is the wrapped call's outcome.  A raising
call propagates before `end`, `duration` and the `print` are reached. -/
def timer (funcName : String) (startT endT : ℚ) (call : Except PyErr Nat) :
    List TimerEvent × Except PyErr Nat :=
  match call with
  | Except.ok v =>
    ([TimerEvent.report funcName (pyRound2 (endT - startT))], Except.ok v)
  | Except.error e => ([], Except.error e)

/-! ### The `timeout` decorator -/

/-- The SIGALRM state of the process: the pending alarm (if armed) and
whether the wrapper's handler is installed. -/
structure SigState where
  pending : Option Nat
  handlerInstalled : Bool
deriving DecidableEq

/-- `signal.signal(signal.SIGALRM, handle_timeout)`. -/
def sigSignal (s : SigState) : SigState :=
  { s with handlerInstalled := true }

/-- `signal.alarm(n)`: `n = 0` disarms, otherwise arms an `n`-second alarm. -/
def sigAlarm (n : Nat) (s : SigState) : SigState :=
  { s with pending := if n = 0 then none else some n }

/-- How the wrapped call can end: normal return, an exception of its own, or
running past the alarm (the installed handler then raises `TimeoutError`,
the alarm having fired and so no longer pending). -/
inductive CallBehavior where
  | ok
  | raises (e : PyErr)
  | runsPastAlarm
deriving DecidableEq

/-- `func(*args, **kwargs)` under an armed alarm. -/
def callUnderAlarm (behavior : CallBehavior) (s : SigState) :
    SigState × Except PyErr Unit :=
  match behavior with
  | CallBehavior.ok => (s, Except.ok ())
  | CallBehavior.raises e => (s, Except.error e)
  | CallBehavior.runsPastAlarm =>
    ({ s with pending := none }, Except.error PyErr.timeoutError)

/-- Python `try: body finally: fin`: the finalizer runs on every exit of the
body, and the body's outcome (value or exception) is then propagated. -/
def pyTryFinally (body : SigState → SigState × Except PyErr Unit)
    (fin : SigState → SigState) (s : SigState) :
    SigState × Except PyErr Unit :=
  let r := body s
  (fin r.1, r.2)

/-- The wrapper produced by `timeout(seconds)`: install the handler, arm the
alarm, run the wrapped call inside `try ... finally: signal.alarm(0)`. -/
def timeout (seconds : Nat) (behavior : CallBehavior) (s0 : SigState) :
    SigState × Except PyErr Unit :=
  pyTryFinally (callUnderAlarm behavior) (sigAlarm 0)
    (sigAlarm seconds (sigSignal s0))

/-! ### The `dmidecode` probe -/

/-- The `valid_keywords` list of `dmidecode`, verbatim from the source. -/
def valid_keywords : List String := [
  "bios-vendor", "bios-version", "bios-release-date",
  "system-manufacturer", "system-product-name", "system-version",
  "system-serial-number", "system-uuid",
  "baseboard-manufacturer", "baseboard-product-name", "baseboard-version",
  "baseboard-serial-number", "baseboard-asset-tag",
  "chassis-manufacturer", "chassis-type", "chassis-version",
  "chassis-serial-number", "chassis-asset-tag",
  "processor-family", "processor-manufacturer", "processor-version",
  "processor-frequency"
]

/-- Observable effects of one `dmidecode(string)` call: console prints,
commands handed to `subprocess.run`, and the value returned or the
exception raised. -/
structure ProbeEffect where
  prints : List String
  invoked : List (List String)
  result : Except PyErr (Option String)
deriving DecidableEq

/-- `dmidecode(string)`. `whichDmidecode` is what `shutil.which('dmidecode')`
returns (`none` when the utility is not on the search path); `utilOutput` is
the decoded stdout of the utility when it runs.  On an invalid keyword the
function prints an error and returns `None`.  Otherwise it builds
`[which('dmidecode'), '-s', string]` and calls `run`; with `whichDmidecode =
none` the command list starts with Python's `None` and `subprocess.run`
raises `TypeError`.  On success it returns the stripped decoded output. -/
def dmidecode (whichDmidecode : Option String) (utilOutput : String)
    (s : String) : ProbeEffect :=
  if valid_keywords.contains s = false then
    { prints := ["Error: " ++ s ++ " is not a valid keyword"],
      invoked := [],
      result := Except.ok none }
  else
    match whichDmidecode with
    | none =>
      { prints := [], invoked := [], result := Except.error PyErr.typeError }
    | some prog =>
      { prints := [],
        invoked := [[prog, "-s", s]],
        result := Except.ok (some (pyStrip utilOutput)) }

/-! ### `first_substring` and the archive-selection step of `__main__` -/

/-- The generator-with-`next` of `first_substring`: first index `i` with
`substring in strings[i]`, else an uncaught `StopIteration`. -/
def firstSubAux (sub : String) (i : Nat) : List String → Except PyErr Nat
  | [] => Except.error PyErr.stopIteration
  | s :: rest =>
    if hasSubstr sub s then Except.ok i else firstSubAux sub (i + 1) rest

/-- `first_substring(strings, substring)`. -/
def first_substring (strings : List String) (sub : String) :
    Except PyErr Nat :=
  firstSubAux sub 0 strings

/-- Outcome of the archive-selection fragment of `__main__`. -/
inductive MainOutcome where
  /-- `sys.exit(n)`. -/
  | exitWithCode (n : Nat)
  /-- the process dies on an uncaught exception. -/
  | uncaught (e : PyErr)
  /-- control reaches `result = extract(_filename)` with this filename. -/
  | extracting (chosen : String)
deriving DecidableEq

/-- The `__main__` fragment after `filename = [f for f in ls-output if
product_name in f]` and a supported vendor: when the token list is nonempty,
`_filename = filename[first_substring(filename, '.zip')]` and extraction is
attempted; when it is empty, `result` stays `None` and the
unsupported-product `sys.exit(1)` is taken. -/
def archiveSelectStep (filenameTokens : List String) : MainOutcome :=
  if filenameTokens.length > 0 then
    match first_substring filenameTokens ".zip" with
    | Except.error e => MainOutcome.uncaught e
    | Except.ok i => MainOutcome.extracting (filenameTokens.getD i "")
  else
    MainOutcome.exitWithCode 1

/-! ### Helper lemmas -/

/-- Dissection of a successful `extract` run that returned a path list: the
input was (typed and) structured as an archive, the entry loop succeeded, the
flat `extractall` is appended after the loop's actions, and the returned
paths join `cwd` to the namelist. -/
theorem extract_ok_some_elim (cwd fn : String) (file : FileData)
    (acts : List FSAction) (r : List String)
    (h : extract cwd fn file = Except.ok (acts, some r)) :
    ∃ entries la, file = FileData.zip entries ∧
      extractLoop entries = Except.ok la ∧
      acts = la ++ [FSAction.extractAll (entries.map Prod.fst)] ∧
      r = (entries.map Prod.fst).map (fun n => cwd ++ "/" ++ n) := by
  unfold extract at h
  split at h
  · simp at h
  · cases file with
    | raw b => simp at h
    | zip entries =>
      simp only at h
      cases hl : extractLoop entries with
      | error e => rw [hl] at h; simp at h
      | ok la =>
        rw [hl] at h
        simp only [Except.ok.injEq, Prod.mk.injEq, Option.some.injEq] at h
        exact ⟨entries, la, rfl, hl, h.1.symm, h.2.symm⟩

/-- The last element of a list that ends in an appended singleton. -/
theorem getLast_append_one {α : Type} (l : List α) (a : α) :
    (l ++ [a]).getLast? = some a := by
  induction l with
  | nil => rfl
  | cons b t ih =>
    rw [List.cons_append, List.getLast?_cons, ih]
    rfl

/-- `firstSubAux` raises `StopIteration` when no element matches, from any
starting index. -/
theorem firstSubAux_no_match (sub : String) :
    ∀ (l : List String) (i : Nat), (∀ s ∈ l, hasSubstr sub s = false) →
      firstSubAux sub i l = Except.error PyErr.stopIteration := by
  intro l
  induction l with
  | nil => intro i _; rfl
  | cons a t ih =>
    intro i h
    unfold firstSubAux
    rw [h a (List.mem_cons_self a t)]
    simp only [Bool.false_eq_true, if_false]
    exact ih (i + 1) (fun s hs => h s (List.mem_cons_of_mem a hs))

/-! ### Claims -/

/-- C5: for every path whose inferred content type is not a zip archive,
`extract` returns `None` immediately, with no filesystem action performed,
so the filesystem is left unchanged. -/
theorem c5_nonzip_returns_none_untouched (cwd fn : String) (file : FileData)
    (fs : List String) (h : guessTypeIsZip fn = false) :
    extract cwd fn file = Except.ok ([], none) ∧ applyActions cwd fs [] = fs := by
  refine ⟨?_, rfl⟩
  unfold extract
  rw [if_pos h]

/-- Witness for C5 at the concrete non-zip path `"notes.txt"`. -/
theorem c5_nonzip_returns_none_untouched_witness :
    guessTypeIsZip "notes.txt" = false ∧
      (extract "/w" "notes.txt" (FileData.raw [7]) = Except.ok ([], none) ∧
        applyActions "/w" ["/w/old"] [] = ["/w/old"]) :=
  ⟨by decide,
    c5_nonzip_returns_none_untouched "/w" "notes.txt" (FileData.raw [7])
      ["/w/old"] (by decide)⟩

/-- C6: the `timeout` wrapper disarms the alarm on every exit path — normal
completion, an exception from the wrapped function, or the alarm firing — so
no pending timer survives past the wrapper's return. -/
theorem c6_alarm_always_disarmed (seconds : Nat) (behavior : CallBehavior)
    (s0 : SigState) : (timeout seconds behavior s0).1.pending = none := by
  cases behavior <;> rfl

/-- Counterexample to C7: a wrapped call that raises makes `timer` propagate
the exception with NO duration report, while the same wrapper does report on
success — the report is not independent of success/failure. -/
theorem c7_report_counterexample :
    (timer "run_utility" 0 5 (Except.error (PyErr.generic "boom"))).1 = [] ∧
      (timer "run_utility" 0 5 (Except.error (PyErr.generic "boom"))).2 =
        Except.error (PyErr.generic "boom") ∧
      (timer "run_utility" 0 5 (Except.ok 0)).1 =
        [TimerEvent.report "run_utility" 5] := by
  refine ⟨rfl, rfl, ?_⟩
  show [TimerEvent.report "run_utility" (pyRound2 (5 - 0))] = _
  norm_num [pyRound2]

/-- C7 (amended): `timer` records wall-clock start and end around the call
and reports the elapsed seconds rounded to two decimal places ONLY when the
wrapped call completes normally; when the call raises, the exception
propagates and no report is made. -/
theorem c7_amended_report_on_success_only (funcName : String)
    (startT endT : ℚ) (v : Nat) (e : PyErr) :
    timer funcName startT endT (Except.ok v) =
        ([TimerEvent.report funcName (pyRound2 (endT - startT))], Except.ok v) ∧
      timer funcName startT endT (Except.error e) = ([], Except.error e) :=
  ⟨rfl, rfl⟩

/-- C1: on an outer archive holding the nested zip `pkg/inner.zip` plus the
plain file `readme.txt`, `extract` (a) creates directory `pkg` and extracts
every inner member into it, and then (b) flatly extracts every outer entry —
nested zip and plain file included — into the working directory; and for
every successful run whatsoever the flat `extractall` is the final action,
independent of the per-entry nested-zip handling. -/
theorem c1_nested_case_and_unconditional_flat :
    (∀ (cwd : String) (inner : List (String × FileData)) (b : List Nat),
      extract cwd "outer.zip"
          (FileData.zip [("pkg/inner.zip", FileData.zip inner),
                         ("readme.txt", FileData.raw b)]) =
        Except.ok
          (FSAction.mkdirP "pkg" ::
            (inner.map (fun e => FSAction.extractMember "pkg" e.1) ++
              [FSAction.extractAll ["pkg/inner.zip", "readme.txt"]]),
           some [cwd ++ "/" ++ "pkg/inner.zip", cwd ++ "/" ++ "readme.txt"])) ∧
    (∀ (cwd fn : String) (file : FileData) (acts : List FSAction)
        (r : List String),
      extract cwd fn file = Except.ok (acts, some r) →
      acts.getLast? = some (FSAction.extractAll (namelist file))) := by
  constructor
  · intro cwd inner b
    have ho : guessTypeIsZip "outer.zip" = true := by decide
    have hp : guessTypeIsZip "pkg/inner.zip" = true := by decide
    have hr : guessTypeIsZip "readme.txt" = false := by decide
    have hd : dirnameFor "pkg/inner.zip" = "pkg" := by decide
    simp [extract, extractLoop, processEntry, ho, hp, hr, hd]
  · intro cwd fn file acts r h
    obtain ⟨entries, la, hfile, _, hacts, _⟩ :=
      extract_ok_some_elim cwd fn file acts r h
    rw [hacts, hfile, getLast_append_one]
    rfl

/-- Witness for C1's unconditional-flat-extraction part at a concrete
archive. -/
theorem c1_nested_case_and_unconditional_flat_witness :
    (extract "/w" "outer.zip"
        (FileData.zip [("pkg/inner.zip",
            FileData.zip [("m.bin", FileData.raw [])]),
          ("readme.txt", FileData.raw [1])]) =
      Except.ok
        ([FSAction.mkdirP "pkg", FSAction.extractMember "pkg" "m.bin",
          FSAction.extractAll ["pkg/inner.zip", "readme.txt"]],
         some ["/w/pkg/inner.zip", "/w/readme.txt"])) ∧
    [FSAction.mkdirP "pkg", FSAction.extractMember "pkg" "m.bin",
        FSAction.extractAll ["pkg/inner.zip", "readme.txt"]].getLast? =
      some (FSAction.extractAll (namelist (FileData.zip
        [("pkg/inner.zip", FileData.zip [("m.bin", FileData.raw [])]),
         ("readme.txt", FileData.raw [1])]))) :=
  ⟨by decide,
    c1_nested_case_and_unconditional_flat.2 "/w" "outer.zip"
      (FileData.zip [("pkg/inner.zip", FileData.zip [("m.bin", FileData.raw [])]),
        ("readme.txt", FileData.raw [1])])
      [FSAction.mkdirP "pkg", FSAction.extractMember "pkg" "m.bin",
        FSAction.extractAll ["pkg/inner.zip", "readme.txt"]]
      ["/w/pkg/inner.zip", "/w/readme.txt"] (by decide)⟩

/-- Counterexample to C2: a doubly nested archive
(`leaf.txt` inside `deep.zip` inside `pkg/mid.zip` inside the outer archive)
is NOT recursively unpacked — `deep.zip` is extracted as a plain member of
`pkg` and no action ever touches `leaf.txt`, which appears nowhere in the
resulting filesystem. -/
theorem c2_arbitrary_depth_counterexample :
    extract "/w" "outer.zip"
        (FileData.zip [("pkg/mid.zip", FileData.zip
          [("deep.zip", FileData.zip [("leaf.txt", FileData.raw [])])])]) =
      Except.ok
        ([FSAction.mkdirP "pkg", FSAction.extractMember "pkg" "deep.zip",
          FSAction.extractAll ["pkg/mid.zip"]],
         some ["/w/pkg/mid.zip"]) ∧
    "/w/pkg/leaf.txt" ∉ applyActions "/w" []
        [FSAction.mkdirP "pkg", FSAction.extractMember "pkg" "deep.zip",
         FSAction.extractAll ["pkg/mid.zip"]] ∧
    "/w/leaf.txt" ∉ applyActions "/w" []
        [FSAction.mkdirP "pkg", FSAction.extractMember "pkg" "deep.zip",
         FSAction.extractAll ["pkg/mid.zip"]] ∧
    "/w/pkg/deep.zip/leaf.txt" ∉ applyActions "/w" []
        [FSAction.mkdirP "pkg", FSAction.extractMember "pkg" "deep.zip",
         FSAction.extractAll ["pkg/mid.zip"]] := by
  decide

/-- C2 (amended): nested-archive handling goes exactly one level deep: the
members of a first-level nested zip are extracted (as files) into the derived
directory, and the result of `extract` is entirely independent of the
contents of any deeper archive — nothing from a second-level zip is ever
unpacked. -/
theorem c2_amended_single_level_only (cwd : String)
    (deep : List (String × FileData)) :
    extract cwd "outer.zip"
        (FileData.zip [("pkg/mid.zip",
          FileData.zip [("deep.zip", FileData.zip deep)])]) =
      Except.ok
        ([FSAction.mkdirP "pkg", FSAction.extractMember "pkg" "deep.zip",
          FSAction.extractAll ["pkg/mid.zip"]],
         some [cwd ++ "/" ++ "pkg/mid.zip"]) := by
  have ho : guessTypeIsZip "outer.zip" = true := by decide
  have hm : guessTypeIsZip "pkg/mid.zip" = true := by decide
  have hd : dirnameFor "pkg/mid.zip" = "pkg" := by decide
  simp [extract, extractLoop, processEntry, ho, hm, hd]

/-- Counterexample to C3: for the nested entry `a/b/inner.zip` the code
concatenates the leading path components WITHOUT a separator, producing the
directory `ab`, not the `a/b` that "dropping the final path component" (the
spec's derivation, `dirnameClaimed`) yields. -/
theorem c3_dirname_counterexample :
    dirnameFor "a/b/inner.zip" = "ab" ∧
      dirnameClaimed "a/b/inner.zip" = "a/b" ∧
      dirnameFor "a/b/inner.zip" ≠ dirnameClaimed "a/b/inner.zip" ∧
      extract "/w" "outer.zip"
          (FileData.zip
            [("a/b/inner.zip", FileData.zip [("x.txt", FileData.raw [])])]) =
        Except.ok
          ([FSAction.mkdirP "ab", FSAction.extractMember "ab" "x.txt",
            FSAction.extractAll ["a/b/inner.zip"]],
           some ["/w/a/b/inner.zip"]) := by
  decide

/-- C3 (amended): for a nested zip entry the extraction directory is the
concatenation, without separators, of all but the last slash-separated
component of the extension-stripped entry name (`dirnameFor`); the directory
(with parents) is created. This agrees with the spec's
drop-the-final-component derivation whenever the stripped name has at most
two components — in particular `pkg/inner.zip` yields `pkg` and a root-level
entry yields the empty-string directory name. -/
theorem c3_amended_dirname_derivation (f : String)
    (inner : List (String × FileData)) (cwd : String)
    (h : guessTypeIsZip f = true) :
    extract cwd "outer.zip" (FileData.zip [(f, FileData.zip inner)]) =
        Except.ok
          (FSAction.mkdirP (dirnameFor f) ::
            (inner.map (fun e => FSAction.extractMember (dirnameFor f) e.1) ++
              [FSAction.extractAll [f]]),
           some [cwd ++ "/" ++ f]) ∧
      ((splitOnChar '/' (splitextChars f.toList).1).length ≤ 2 →
        dirnameFor f = dirnameClaimed f) := by
  constructor
  · have ho : guessTypeIsZip "outer.zip" = true := by decide
    simp [extract, extractLoop, processEntry, ho, h]
  · intro hlen
    unfold dirnameFor dirnameClaimed
    rcases hL : splitOnChar '/' (splitextChars f.toList).1 with _ | ⟨a, _ | ⟨b, t⟩⟩
    · rfl
    · rfl
    · rw [hL] at hlen
      cases t with
      | nil => rfl
      | cons c t2 => simp at hlen

/-- Witness for C3 (amended) at the concrete entry `pkg/inner.zip`. -/
theorem c3_amended_dirname_derivation_witness :
    guessTypeIsZip "pkg/inner.zip" = true ∧
      extract "/w" "outer.zip"
          (FileData.zip
            [("pkg/inner.zip", FileData.zip [("m.bin", FileData.raw [])])]) =
        Except.ok
          (FSAction.mkdirP (dirnameFor "pkg/inner.zip") ::
            ([FSAction.extractMember (dirnameFor "pkg/inner.zip") "m.bin"] ++
              [FSAction.extractAll ["pkg/inner.zip"]]),
           some ["/w" ++ "/" ++ "pkg/inner.zip"]) ∧
      dirnameFor "pkg/inner.zip" = dirnameClaimed "pkg/inner.zip" :=
  ⟨by decide,
    (c3_amended_dirname_derivation "pkg/inner.zip" [("m.bin", FileData.raw [])]
      "/w" (by decide)).1,
    (c3_amended_dirname_derivation "pkg/inner.zip" [("m.bin", FileData.raw [])]
      "/w" (by decide)).2 (by decide)⟩

/-- C4: a successful `extract` returns exactly the working directory joined
(with `/`) to each entry name of the outer archive's namelist, in archive
order, and every returned path exists in the abstract filesystem after the
actions have been applied (the final flat `extractall` creates each of
them). -/
theorem c4_result_paths_exist (cwd fn : String) (file : FileData)
    (acts : List FSAction) (r : List String) (fs : List String)
    (h : extract cwd fn file = Except.ok (acts, some r)) :
    r = (namelist file).map (fun n => cwd ++ "/" ++ n) ∧
      ∀ p ∈ r, p ∈ applyActions cwd fs acts := by
  obtain ⟨entries, la, hfile, _, hacts, hr⟩ :=
    extract_ok_some_elim cwd fn file acts r h
  subst hfile
  refine ⟨by rw [hr]; rfl, ?_⟩
  intro p hp
  rw [hacts]
  unfold applyActions
  rw [List.foldl_append]
  simp only [List.foldl_cons, List.foldl_nil, applyAction]
  rw [hr] at hp
  exact List.mem_append_left _ hp

/-- Witness for C4 at a concrete two-entry archive and the returned path
`/w/readme.txt`. -/
theorem c4_result_paths_exist_witness :
    (extract "/w" "fw.zip"
        (FileData.zip [("pkg/inner.zip",
            FileData.zip [("m.bin", FileData.raw [])]),
          ("readme.txt", FileData.raw [1])]) =
      Except.ok
        ([FSAction.mkdirP "pkg", FSAction.extractMember "pkg" "m.bin",
          FSAction.extractAll ["pkg/inner.zip", "readme.txt"]],
         some ["/w/pkg/inner.zip", "/w/readme.txt"])) ∧
    "/w/readme.txt" ∈ applyActions "/w" []
        [FSAction.mkdirP "pkg", FSAction.extractMember "pkg" "m.bin",
         FSAction.extractAll ["pkg/inner.zip", "readme.txt"]] :=
  ⟨by decide,
    (c4_result_paths_exist "/w" "fw.zip"
      (FileData.zip [("pkg/inner.zip", FileData.zip [("m.bin", FileData.raw [])]),
        ("readme.txt", FileData.raw [1])])
      [FSAction.mkdirP "pkg", FSAction.extractMember "pkg" "m.bin",
        FSAction.extractAll ["pkg/inner.zip", "readme.txt"]]
      ["/w/pkg/inner.zip", "/w/readme.txt"] [] (by decide)).2
      "/w/readme.txt" (by decide)⟩

/-- Counterexample to C8: the recognized keyword set of `dmidecode` has 22
identifiers, not 21. -/
theorem c8_keyword_count_counterexample :
    valid_keywords.length = 22 ∧ valid_keywords.length ≠ 21 := by
  decide

/-- C8 (amended): the hardware probe recognizes exactly 22 distinct field
identifiers, and for every string outside that set it prints an error notice
and returns `None` without invoking anything and without raising. -/
theorem c8_amended_22_keywords_and_error (w : Option String) (out s : String)
    (h : valid_keywords.contains s = false) :
    valid_keywords.Nodup ∧ valid_keywords.length = 22 ∧
      dmidecode w out s =
        ⟨["Error: " ++ s ++ " is not a valid keyword"], [],
          Except.ok none⟩ := by
  refine ⟨by decide, by decide, ?_⟩
  unfold dmidecode
  rw [if_pos h]

/-- Witness for C8 (amended) at the unrecognized identifier `"zip"`. -/
theorem c8_amended_22_keywords_and_error_witness :
    valid_keywords.contains "zip" = false ∧
      (valid_keywords.Nodup ∧ valid_keywords.length = 22 ∧
        dmidecode none "" "zip" =
          ⟨["Error: " ++ "zip" ++ " is not a valid keyword"], [],
            Except.ok none⟩) :=
  ⟨by decide, c8_amended_22_keywords_and_error none "" "zip" (by decide)⟩

/-- Counterexample to C9: on the recognized field `bios-version` with the
utility absent from the search path, `dmidecode` raises a `TypeError`
(`which` returns `None` and `subprocess.run` is handed `[None, '-s', ...]`)
instead of returning `None`. -/
theorem c9_unavailable_utility_counterexample :
    (dmidecode none "" "bios-version").result = Except.error PyErr.typeError ∧
      (dmidecode none "" "bios-version").result ≠ Except.ok none := by
  decide

/-- C9 (amended): for every recognized field identifier, when the utility is
on the search path the probe invokes it restricted to that field
(`[prog, '-s', field]`) and returns its trimmed textual output; when the
utility is NOT available the probe raises a `TypeError` rather than
returning `None`. -/
theorem c9_amended_probe_invocation (out s prog : String)
    (h : valid_keywords.contains s = true) :
    dmidecode (some prog) out s =
        ⟨[], [[prog, "-s", s]], Except.ok (some (pyStrip out))⟩ ∧
      dmidecode none out s = ⟨[], [], Except.error PyErr.typeError⟩ := by
  have hmem : s ∈ valid_keywords := by simpa using h
  constructor <;> simp [dmidecode, hmem]

/-- Witness for C9 (amended) at the field `bios-version` with utility path
`/usr/sbin/dmidecode` and raw output `" F1a\n"`. -/
theorem c9_amended_probe_invocation_witness :
    valid_keywords.contains "bios-version" = true ∧
      (dmidecode (some "/usr/sbin/dmidecode") " F1a\n" "bios-version" =
          ⟨[], [["/usr/sbin/dmidecode", "-s", "bios-version"]],
            Except.ok (some (pyStrip " F1a\n"))⟩ ∧
        dmidecode none " F1a\n" "bios-version" =
          ⟨[], [], Except.error PyErr.typeError⟩) :=
  ⟨by decide,
    c9_amended_probe_invocation " F1a\n" "bios-version" "/usr/sbin/dmidecode"
      (by decide)⟩

/-- C10: when no element of a nonempty list contains the substring,
`first_substring` raises an uncaught `StopIteration`; hence, when the
working-directory tokens match the product name but none contains `.zip`,
the orchestrator's archive-selection step dies on that uncaught
`StopIteration` instead of reaching the unsupported-product `sys.exit(1)`. -/
theorem c10_stopiteration_instead_of_exit (strings toks : List String)
    (sub : String)
    (hstr : ∀ s ∈ strings, hasSubstr sub s = false)
    (hne : toks ≠ [])
    (hz : ∀ s ∈ toks, hasSubstr ".zip" s = false) :
    first_substring strings sub = Except.error PyErr.stopIteration ∧
      archiveSelectStep toks = MainOutcome.uncaught PyErr.stopIteration ∧
      archiveSelectStep toks ≠ MainOutcome.exitWithCode 1 := by
  have h1 : first_substring toks ".zip" = Except.error PyErr.stopIteration :=
    firstSubAux_no_match ".zip" toks 0 hz
  have h2 : archiveSelectStep toks = MainOutcome.uncaught PyErr.stopIteration := by
    unfold archiveSelectStep
    rw [if_pos (List.length_pos.mpr hne), h1]
  refine ⟨firstSubAux_no_match sub strings 0 hstr, h2, ?_⟩
  rw [h2]
  intro hc
  exact MainOutcome.noConfusion hc

/-- Witness for C10 at a concrete token list matching the product name but
containing no `.zip`. -/
theorem c10_stopiteration_instead_of_exit_witness :
    first_substring ["flashtool"] "zzz" = Except.error PyErr.stopIteration ∧
      archiveSelectStep ["BIOS_X570_F1.tar"] =
        MainOutcome.uncaught PyErr.stopIteration ∧
      archiveSelectStep ["BIOS_X570_F1.tar"] ≠ MainOutcome.exitWithCode 1 :=
  c10_stopiteration_instead_of_exit ["flashtool"] ["BIOS_X570_F1.tar"] "zzz"
    (by decide) (by decide) (by decide)

end ZipRecurse
